import Mathlib

/-
  Verification of two utility layers of the repository:

  * the module-id classifier helpers `isVue`, `isJS` and `getLoader`
    (packages/nuxt/src/core/utils/plugins.ts), and
  * the deduplicating Vite logger shim `createViteLogger`.

  The embedding is shallow: JS strings are Lean `String`s, the mutable
  module/closure state of the logger is an explicit `LoggerState` record,
  and each logger method is a state-passing function that also returns the
  list of lines it hands to the external logging facility.

  Third-party library calls are modelled as follows, with the modelling
  assumption recorded at each definition:
  * `parseURL(decodeURIComponent(pathToFileURL(id).href))` — `pathToFileURL`
    percent-encodes the id (including `%` itself, so pre-existing escapes
    are doubled) and `decodeURIComponent` undoes exactly that encoding, so
    the composition amounts to parsing `"file://" ++ <absolute form of id>`;
    path resolution is modelled against the root working directory and
    dot-segment collapsing is not modelled (no claim depends on it).
  * `ufo.parseQuery` keeps the key/value split; percent/plus decoding of
    keys and values is not modelled (no claim feeds encoded keys).
  * `pathe.extname` follows the pathe regex (a dot, preceded by at least
    one character, followed by a nonempty run of non-dot non-slash
    characters at the end of the path).
-/

namespace NuxtVerify

/-! ### JS string primitives, modelled on the character list -/

/-- JS `String.prototype.startsWith`. -/
def strStartsWith (s p : String) : Bool := p.toList.isPrefixOf s.toList

/-- JS `String.prototype.endsWith`. -/
def strEndsWith (s p : String) : Bool := p.toList.reverse.isPrefixOf s.toList.reverse

/-- Whether the character list `p` occurs as a contiguous run inside `s`. -/
def containsRun (p : List Char) : List Char → Bool
  | [] => p.isEmpty
  | c :: tl => p.isPrefixOf (c :: tl) || containsRun p tl

/-- JS `String.prototype.includes`. -/
def strContains (s p : String) : Bool := containsRun p.toList s.toList

/-- ASCII whitespace stripped by JS `String.prototype.trim`
    (unicode space classes are not modelled). -/
def wsChar (c : Char) : Bool :=
  c == ' ' || c == Char.ofNat 9 || c == Char.ofNat 10 ||
  c == Char.ofNat 13 || c == Char.ofNat 11 || c == Char.ofNat 12

/-- JS `String.prototype.trim`. -/
def jsTrim (s : String) : String :=
  String.mk (((s.toList.dropWhile wsChar).reverse.dropWhile wsChar).reverse)

/-! ### URL parsing: parseURL(decodeURIComponent(pathToFileURL(id).href)) -/

structure ParsedURL where
  pathname : String
  search : String
  deriving DecidableEq, Repr

/-- Models `parseURL(decodeURIComponent(pathToFileURL(id).href))` from the
    source. The percent-encoding added by `pathToFileURL` is undone by
    `decodeURIComponent`, so the decoded href is `"file://"` followed by the
    absolute form of `id`; `parseURL` then splits the part after the empty
    host at the first `?` (query, ending at the first `#`) and `#` (hash).
    Making the path absolute is modelled by prefixing a slash when missing
    (resolution against the root working directory). -/
def parseFileURL (id : String) : ParsedURL :=
  let cs := id.toList
  let p := cs.takeWhile (fun c => c != '?' && c != '#')
  let rest := cs.dropWhile (fun c => c != '?' && c != '#')
  let search :=
    match rest with
    | '?' :: _ => rest.takeWhile (fun c => c != '#')
    | _ => []
  { pathname := String.mk (if p.head? == some '/' then p else '/' :: p),
    search := String.mk search }

/-! ### Query parsing: ufo.parseQuery -/

/-- JS `split("&")` on the character list. -/
def splitAmp : List Char → List (List Char)
  | [] => [[]]
  | '&' :: tl => [] :: splitAmp tl
  | c :: tl =>
    match splitAmp tl with
    | [] => [[c]]
    | p :: ps => (c :: p) :: ps

/-- Models `ufo.parseQuery`: strips one leading `?`, splits on `&`, and
    splits each nonempty parameter at its first `=` (parameters with an
    empty key are skipped, as the `([^=]+)=?(.*)` match fails on them).
    Percent/plus decoding of keys and values is not modelled. -/
def parseQuery (search : String) : List (String × String) :=
  let body :=
    match search.toList with
    | '?' :: tl => tl
    | cs => cs
  (splitAmp body).filterMap (fun part =>
    let k := part.takeWhile (fun c => c != '=')
    if k.isEmpty then none
    else
      let v :=
        match part.dropWhile (fun c => c != '=') with
        | _ :: tl => tl
        | [] => []
      some (String.mk k, String.mk v))

/-- The JS value of a query-object property: absent (`undefined`), a single
    string, or an array (when the key is repeated, as ufo collects repeats
    into an array). -/
inductive QVal where
  | undef
  | str (s : String)
  | arr (vs : List String)
  deriving DecidableEq, Repr

def qVals (q : List (String × String)) (k : String) : List String :=
  (q.filter (fun kv => kv.1 == k)).map (fun kv => kv.2)

/-- The JS `in` operator on the query object. -/
def qHas (q : List (String × String)) (k : String) : Bool :=
  q.any (fun kv => kv.1 == k)

def qGet (q : List (String × String)) (k : String) : QVal :=
  match qVals q k with
  | [] => QVal.undef
  | [v] => QVal.str v
  | vs => QVal.arr vs

/-- JS truthiness of a query-object property: `undefined` and the empty
    string are falsy, every other string and every array is truthy. -/
def QVal.truthy : QVal → Bool
  | QVal.undef => false
  | QVal.str s => s != ""
  | QVal.arr _ => true

/-- JS `opts.type.includes(type)` where `type` is the query value:
    `includes` compares with SameValueZero, so only a single-string value
    can be a member of the string array. -/
def qvalIncluded (ts : List String) : QVal → Bool
  | QVal.str v => ts.contains v
  | _ => false

/-! ### pathe.extname and the script-extension regex -/

/-- Models `pathe.extname` (regex `/.(\.[^./]+)$/`, group 1): the extension
    is the final dot-plus-nonempty-run of non-dot non-slash characters,
    provided at least one character precedes that dot. Windows separator
    normalization is not modelled. -/
def extname (p : String) : String :=
  let rev := p.toList.reverse
  let run := rev.takeWhile (fun c => c != '.' && c != '/')
  if run.isEmpty then ""
  else
    match rev.drop run.length with
    | '.' :: _ :: _ => String.mk ('.' :: run.reverse)
    | _ => ""

/-- `JS_RE = /\.(?:[cm]?j|t)sx?$/` as the equivalent finite suffix set. -/
def jsRegexTest (s : String) : Bool :=
  [".js", ".cjs", ".mjs", ".ts", ".jsx", ".cjsx", ".mjsx", ".tsx"].any
    (fun suf => strEndsWith s suf)

/-! ### The classifier functions (packages/nuxt/src/core/utils/plugins.ts) -/

/-- The branching of `isVue` after the URL has been parsed; `endsVue` is
    `id.endsWith(".vue")` and `optsType` is `opts.type` (absent or a string
    array; the empty array is truthy in JS, hence `optsType ≠ none` models
    the `opts.type &&` guard). -/
def isVueCore (endsVue : Bool) (search : String) (optsType : Option (List String)) : Bool :=
  -- Bare `.vue` file (in Vite)
  if endsVue && search == "" then true
  else if search == "" then false
  else
    let query := parseQuery search
    -- Component async/lazy wrapper
    if (qGet query "nuxt_component").truthy then false
    -- Macro
    else if (qGet query "macro").truthy &&
        (search == "?macro=true" || optsType == none ||
          (optsType.getD []).contains "script") then true
    else
      -- Non-Vue or Styles
      let type := if qHas query "setup" then QVal.str "script" else qGet query "type"
      if !(qHas query "vue") ||
          (optsType != none && !(qvalIncluded (optsType.getD []) type)) then false
      -- Query `?vue&type=template` (in Webpack or external template)
      else true

def isVue (id : String) (optsType : Option (List String)) : Bool :=
  isVueCore (strEndsWith id ".vue") (parseFileURL id).search optsType

def isJS (id : String) : Bool :=
  jsRegexTest (parseFileURL id).pathname

inductive Loader where
  | vue
  | ts
  | tsx
  deriving DecidableEq, Repr

def getLoader (id : String) : Option Loader :=
  let ext := extname (parseFileURL id).pathname
  if ext == ".vue" then some Loader.vue
  else if !(jsRegexTest ext) then none
  else if strEndsWith ext "x" then some Loader.tsx
  else some Loader.ts

example : isVue "/a/b.vue" none = true := by decide
example : isVue "/a/b.vue?vue&type=style" (some ["style"]) = true := by decide
example : isVue "/a/b.vue?vue&type=style" (some ["script"]) = false := by decide
example : isVue "/a/b.vue?nuxt_component=async" none = false := by decide
example : isJS "/a/b.mjs" = true := by decide
example : isJS "/a/b.css" = false := by decide
example : getLoader "/a/b.tsx" = some Loader.tsx := by decide
example : getLoader "/a/b.js" = some Loader.ts := by decide
example : getLoader "/a/b.vue" = some Loader.vue := by decide
example : getLoader "/a/b.css" = none := by decide

/-! ### The Vite logger shim (createViteLogger) -/

/-- The Vite `LogType` values the shim handles. -/
inductive LogType where
  | info
  | warn
  | error
  deriving DecidableEq, Repr

/-- The Vite log levels appearing in `config.logLevel`. -/
inductive ViteLevel where
  | silent
  | error
  | warn
  | info
  deriving DecidableEq, Repr

/-- `logLevelMapReverse` from the source: consola numeric level per Vite level. -/
def logLevelMapReverse : ViteLevel → Nat
  | ViteLevel.silent => 0
  | ViteLevel.error => 1
  | ViteLevel.warn => 2
  | ViteLevel.info => 3

/-- The fields of Vite `LogErrorOptions` the shim reads. Error objects are
    identity-compared by the `WeakSet`, so they are modelled by numeric
    identities. -/
structure LogOptions where
  clear : Bool
  error : Option Nat
  deriving DecidableEq, Repr

/-- The per-logger environment: `process.env.DEBUG` truthiness, the
    `ctx.hideOutput` flag, `relative(config.root, config.build.outDir)`,
    the `resolveFromPublicAssets` predicate of the public-assets plugin,
    and `config.logLevel` (absent means the `|| "info"` default applies). -/
structure Config where
  debug : Bool
  hideOutput : Bool
  relativeOutDir : String
  resolvePublicAsset : String → Bool
  logLevel : Option ViteLevel

/-- The mutable state visible to the shim: the module-level duplicate
    tracker (`duplicateCount`, `lastType`, `lastMsg`), the closure-level
    `loggedErrors` weak set and `warnedMessages` set, the logger object
    field `hasWarned`, and the external consola logger level it
    temporarily overrides. -/
structure LoggerState where
  duplicateCount : Nat
  lastType : Option LogType
  lastMsg : Option String
  loggedErrors : List Nat
  warnedMessages : List String
  hasWarned : Bool
  externalLevel : Nat
  deriving DecidableEq, Repr

/-- The state right after `createViteLogger` returns, on a fresh module
    load, with the external logger sitting at level `lvl`. -/
def initState (lvl : Nat) : LoggerState :=
  { duplicateCount := 0, lastType := none, lastMsg := none,
    loggedErrors := [], warnedMessages := [], hasWarned := false,
    externalLevel := lvl }

/-- One call handed to the external logging facility: the method invoked,
    the rendered text, and the external level in force during the call. -/
structure Emission where
  kind : LogType
  text : String
  level : Nat
  deriving DecidableEq, Repr

/-- An apostrophe character, used inside string constants. -/
def apos : String := String.mk [Char.ofNat 39]

/-- The literal matched by `msg.includes(...)` for externals warnings. -/
def runtimePhrase : String :=
  "didn" ++ apos ++ "t resolve at build time, it will remain unchanged to be resolved at runtime"

/-- `consola/utils` `colorize("dim", s)`: ANSI dim wrapping. -/
def colorizeDim (s : String) : String :=
  String.mk [Char.ofNat 27] ++ "[2m" ++ s ++ String.mk [Char.ofNat 27] ++ "[22m"

/-- The literal of `RUNTIME_RESOLVE_REF_RE` following the captured group. -/
def refLiteral : String := " referenced in"

/-- One attempted match of `/^([^ ]+) referenced in/` at a line start:
    the group is the maximal nonempty run of non-space characters, and the
    literal `" referenced in"` must follow it. -/
def refAt (cs : List Char) : Option String :=
  let run := cs.takeWhile (fun c => c != ' ')
  if run.isEmpty then none
  else if refLiteral.toList.isPrefixOf (cs.drop run.length) then some (String.mk run)
  else none

/-- Left-to-right scan of the multiline regex `RUNTIME_RESOLVE_REF_RE`:
    a match is attempted at every line start (position 0 and every
    position following a newline), and the first capture wins. -/
def findRefScan : Bool → List Char → Option String
  | _, [] => none
  | atStart, c :: tl =>
    if atStart then
      match refAt (c :: tl) with
      | some r => some r
      | none => findRefScan (c == Char.ofNat 10) tl
    else findRefScan (c == Char.ofNat 10) tl

/-- `msg.trim().match(RUNTIME_RESOLVE_REF_RE)?.[1]` from the source. -/
def extractRef (msg : String) : Option String :=
  findRefScan true (jsTrim msg).toList

/-- The early-return filter at the top of `output`: active only when
    `process.env.DEBUG` is falsy, it drops node_modules sourcemap warnings,
    runtime-resolved externals whose referenced id is a public asset, and
    build-output echoes when `ctx.hideOutput` is set. -/
def filtered (cfg : Config) (type : LogType) (msg : String) : Bool :=
  !cfg.debug &&
    ((strStartsWith msg "Sourcemap" && strContains msg "node_modules") ||
     (strContains msg runtimePhrase &&
       (match extractRef msg with
        | some i => cfg.resolvePublicAsset i
        | none => false)) ||
     (type == LogType.info && cfg.hideOutput && strContains msg cfg.relativeOutDir))

/-- `output` from the source: apply the filter, update the duplicate
    tracker (the annotation prints `duplicateCount + 1` after the
    increment, i.e. the old count plus two), record `options.error` in the
    logged-errors set, and hand one line to the external logger with its
    level set from `config.logLevel` for the duration of the call and
    restored afterwards. Screen clearing has no observable state here and
    is not modelled. -/
def output (cfg : Config) (s : LoggerState) (type : LogType) (msg : String)
    (opts : LogOptions) : LoggerState × List Emission :=
  if filtered cfg type msg then (s, [])
  else
    let sameAsLast := s.lastType == some type && s.lastMsg == some msg
    let s1 :=
      if sameAsLast then { s with duplicateCount := s.duplicateCount + 1 }
      else { s with duplicateCount := 0, lastType := some type, lastMsg := some msg }
    let line :=
      if sameAsLast then
        msg ++ colorizeDim (" (x" ++ toString (s.duplicateCount + 2) ++ ")")
      else msg
    let s2 :=
      match opts.error with
      | some e => { s1 with loggedErrors := e :: s1.loggedErrors }
      | none => s1
    let prevLevel := s2.externalLevel
    let s3 := { s2 with externalLevel := logLevelMapReverse (cfg.logLevel.getD ViteLevel.info) }
    let s4 := { s3 with externalLevel := prevLevel }
    (s4, [{ kind := type, text := line, level := s3.externalLevel }])

namespace ViteLogger

def info (cfg : Config) (s : LoggerState) (msg : String) (opts : LogOptions) :
    LoggerState × List Emission :=
  output cfg s LogType.info msg opts

def warn (cfg : Config) (s : LoggerState) (msg : String) (opts : LogOptions) :
    LoggerState × List Emission :=
  output cfg { s with hasWarned := true } LogType.warn msg opts

def warnOnce (cfg : Config) (s : LoggerState) (msg : String) (opts : LogOptions) :
    LoggerState × List Emission :=
  if msg ∈ s.warnedMessages then (s, [])
  else
    let r := output cfg { s with hasWarned := true } LogType.warn msg opts
    ({ r.1 with warnedMessages := msg :: r.1.warnedMessages }, r.2)

def error (cfg : Config) (s : LoggerState) (msg : String) (opts : LogOptions) :
    LoggerState × List Emission :=
  output cfg { s with hasWarned := true } LogType.error msg opts

def hasErrorLogged (s : LoggerState) (e : Nat) : Bool :=
  e ∈ s.loggedErrors

end ViteLogger

/-- One external invocation of a logger method. -/
inductive Call where
  | info (msg : String) (opts : LogOptions)
  | warn (msg : String) (opts : LogOptions)
  | warnOnce (msg : String) (opts : LogOptions)
  | error (msg : String) (opts : LogOptions)
  deriving DecidableEq, Repr

def step (cfg : Config) (s : LoggerState) : Call → LoggerState × List Emission
  | Call.info msg opts => ViteLogger.info cfg s msg opts
  | Call.warn msg opts => ViteLogger.warn cfg s msg opts
  | Call.warnOnce msg opts => ViteLogger.warnOnce cfg s msg opts
  | Call.error msg opts => ViteLogger.error cfg s msg opts

/-- The state after a sequence of logger calls. -/
def run (cfg : Config) (s : LoggerState) : List Call → LoggerState
  | [] => s
  | c :: cs => run cfg (step cfg s c).1 cs

/-- The `options.error` field of a call. -/
def Call.errOf : Call → Option Nat
  | Call.info _ opts => opts.error
  | Call.warn _ opts => opts.error
  | Call.warnOnce _ opts => opts.error
  | Call.error _ opts => opts.error

/-- Whether a call reaches the emission stage of `output`: it is neither
    dropped by the noise filter nor skipped as an already-seen `warnOnce`
    message. -/
def reachesOutput (cfg : Config) (s : LoggerState) : Call → Bool
  | Call.info msg _ => !filtered cfg LogType.info msg
  | Call.warn msg _ => !filtered cfg LogType.warn msg
  | Call.warnOnce msg _ => !(s.warnedMessages.contains msg) && !filtered cfg LogType.warn msg
  | Call.error msg _ => !filtered cfg LogType.error msg

/-! ### Concrete fixtures used by witnesses and counterexamples -/

/-- A plain configuration: no DEBUG, no output hiding, nothing resolves to
    a public asset. -/
def cfgA : Config :=
  { debug := false, hideOutput := false, relativeOutDir := "dist",
    resolvePublicAsset := fun _ => false, logLevel := none }

/-- A configuration with output hiding on and one public asset. -/
def cfgB : Config :=
  { debug := false, hideOutput := true, relativeOutDir := ".output",
    resolvePublicAsset := fun a => a == "img.png", logLevel := none }

/-- Empty log options. -/
def o0 : LogOptions := { clear := false, error := none }

/-- A state whose tracked last pair is (warn, "w"). -/
def stC2 : LoggerState :=
  { duplicateCount := 0, lastType := some LogType.warn, lastMsg := some "w",
    loggedErrors := [], warnedMessages := [], hasWarned := true, externalLevel := 3 }

/-! ### Basic lemmas about `output` and `step` -/

lemma output_of_filtered {cfg : Config} {s : LoggerState} {t : LogType} {m : String}
    {o : LogOptions} (h : filtered cfg t m = true) :
    output cfg s t m o = (s, []) := by
  simp [output, h]

/-- Full characterization of `output` as a case split, used by the claim
    proofs below. -/
lemma output_eq (cfg : Config) (s : LoggerState) (t : LogType) (m : String)
    (o : LogOptions) :
    output cfg s t m o =
      if filtered cfg t m then (s, [])
      else if s.lastType == some t && s.lastMsg == some m then
        ({ s with
              duplicateCount := s.duplicateCount + 1
              loggedErrors :=
                (match o.error with
                 | some e => e :: s.loggedErrors
                 | none => s.loggedErrors) },
         [{ kind := t,
            text := m ++ colorizeDim (" (x" ++ toString (s.duplicateCount + 2) ++ ")"),
            level := logLevelMapReverse (cfg.logLevel.getD ViteLevel.info) }])
      else
        ({ s with
              duplicateCount := 0
              lastType := some t
              lastMsg := some m
              loggedErrors :=
                (match o.error with
                 | some e => e :: s.loggedErrors
                 | none => s.loggedErrors) },
         [{ kind := t, text := m,
            level := logLevelMapReverse (cfg.logLevel.getD ViteLevel.info) }]) := by
  by_cases hf : filtered cfg t m = true
  · simp [output, hf]
  · by_cases hsame : (s.lastType == some t && s.lastMsg == some m) = true <;>
      cases ho : o.error <;> simp [output, hf, hsame, ho]

lemma output_externalLevel (cfg : Config) (s : LoggerState) (t : LogType) (m : String)
    (o : LogOptions) : (output cfg s t m o).1.externalLevel = s.externalLevel := by
  rw [output_eq]; split_ifs <;> rfl

lemma output_hasWarned (cfg : Config) (s : LoggerState) (t : LogType) (m : String)
    (o : LogOptions) : (output cfg s t m o).1.hasWarned = s.hasWarned := by
  rw [output_eq]; split_ifs <;> rfl

lemma output_warnedMessages (cfg : Config) (s : LoggerState) (t : LogType) (m : String)
    (o : LogOptions) : (output cfg s t m o).1.warnedMessages = s.warnedMessages := by
  rw [output_eq]; split_ifs <;> rfl

lemma output_loggedErrors (cfg : Config) (s : LoggerState) (t : LogType) (m : String)
    (o : LogOptions) :
    (output cfg s t m o).1.loggedErrors =
      if filtered cfg t m then s.loggedErrors
      else
        match o.error with
        | some e => e :: s.loggedErrors
        | none => s.loggedErrors := by
  rw [output_eq]; split_ifs <;> rfl

lemma output_level_all (cfg : Config) (s : LoggerState) (t : LogType) (m : String)
    (o : LogOptions) :
    ∀ e ∈ (output cfg s t m o).2, e.level = logLevelMapReverse (cfg.logLevel.getD ViteLevel.info) := by
  rw [output_eq]; split_ifs <;> simp

lemma output_loggedErrors_mem {cfg : Config} {s : LoggerState} {t : LogType} {m : String}
    {o : LogOptions} {e : Nat} (hf : filtered cfg t m = false) (he : o.error = some e) :
    e ∈ (output cfg s t m o).1.loggedErrors := by
  rw [output_loggedErrors, hf, he]
  simp

lemma output_loggedErrors_sub {cfg : Config} {s : LoggerState} {t : LogType} {m : String}
    {o : LogOptions} {x : Nat} (hx : x ∈ (output cfg s t m o).1.loggedErrors) :
    x ∈ s.loggedErrors ∨ o.error = some x := by
  rw [output_loggedErrors] at hx
  split_ifs at hx
  · exact Or.inl hx
  · cases ho : o.error <;> rw [ho] at hx
    · exact Or.inl hx
    · rcases List.mem_cons.mp hx with h | h
      · exact Or.inr (by subst h; rfl)
      · exact Or.inl h

lemma step_externalLevel (cfg : Config) (s : LoggerState) (c : Call) :
    (step cfg s c).1.externalLevel = s.externalLevel := by
  cases c <;>
    simp only [step, ViteLogger.info, ViteLogger.warn, ViteLogger.error, ViteLogger.warnOnce]
  case info msg opts => exact output_externalLevel ..
  case warn msg opts => exact output_externalLevel ..
  case error msg opts => exact output_externalLevel ..
  case warnOnce msg opts =>
    split
    · rfl
    · exact output_externalLevel ..

lemma step_level_all (cfg : Config) (s : LoggerState) (c : Call) :
    ∀ e ∈ (step cfg s c).2, e.level = logLevelMapReverse (cfg.logLevel.getD ViteLevel.info) := by
  cases c <;>
    simp only [step, ViteLogger.info, ViteLogger.warn, ViteLogger.error, ViteLogger.warnOnce]
  case info msg opts => exact fun e he => output_level_all _ _ _ _ _ e he
  case warn msg opts => exact fun e he => output_level_all _ _ _ _ _ e he
  case error msg opts => exact fun e he => output_level_all _ _ _ _ _ e he
  case warnOnce msg opts =>
    split
    · simp
    · exact fun e he => output_level_all _ _ _ _ _ e he

lemma step_hasWarned_mono {cfg : Config} {s : LoggerState} {c : Call}
    (h : s.hasWarned = true) : (step cfg s c).1.hasWarned = true := by
  cases c <;>
    simp only [step, ViteLogger.info, ViteLogger.warn, ViteLogger.error, ViteLogger.warnOnce]
  case info msg opts => rw [output_hasWarned]; exact h
  case warn msg opts => rw [output_hasWarned]
  case error msg opts => rw [output_hasWarned]
  case warnOnce msg opts =>
    split
    · exact h
    · show (output ..).1.hasWarned = true
      rw [output_hasWarned]

lemma step_warnedMessages_mono {cfg : Config} {s : LoggerState} {c : Call} {m : String}
    (h : m ∈ s.warnedMessages) : m ∈ (step cfg s c).1.warnedMessages := by
  cases c <;>
    simp only [step, ViteLogger.info, ViteLogger.warn, ViteLogger.error, ViteLogger.warnOnce]
  case info msg opts => rw [output_warnedMessages]; exact h
  case warn msg opts => rw [output_warnedMessages]; exact h
  case error msg opts => rw [output_warnedMessages]; exact h
  case warnOnce msg opts =>
    split
    · exact h
    · show m ∈ msg :: (output ..).1.warnedMessages
      rw [output_warnedMessages]
      exact List.mem_cons_of_mem _ h

lemma step_loggedErrors_sub {cfg : Config} {s : LoggerState} {c : Call} {x : Nat}
    (hx : x ∈ (step cfg s c).1.loggedErrors) : x ∈ s.loggedErrors ∨ c.errOf = some x := by
  cases c <;>
    simp only [step, ViteLogger.info, ViteLogger.warn, ViteLogger.error, ViteLogger.warnOnce,
      Call.errOf] at hx ⊢
  case info msg opts => exact output_loggedErrors_sub hx
  case warn msg opts => exact output_loggedErrors_sub (s := { s with hasWarned := true }) hx
  case error msg opts => exact output_loggedErrors_sub (s := { s with hasWarned := true }) hx
  case warnOnce msg opts =>
    rcases hin : decide (msg ∈ s.warnedMessages) with _ | _
    · rw [if_neg (of_decide_eq_false hin)] at hx
      exact output_loggedErrors_sub (s := { s with hasWarned := true }) hx
    · rw [if_pos (of_decide_eq_true hin)] at hx
      exact Or.inl hx

lemma run_loggedErrors_absent {cfg : Config} {e : Nat} :
    ∀ {calls : List Call} {s : LoggerState}, e ∉ s.loggedErrors →
      (∀ c ∈ calls, c.errOf ≠ some e) → e ∉ (run cfg s calls).loggedErrors := by
  intro calls
  induction calls with
  | nil => exact fun h _ => h
  | cons c cs ih =>
    intro s h hc
    show e ∉ (run cfg (step cfg s c).1 cs).loggedErrors
    apply ih
    · intro hmem
      rcases step_loggedErrors_sub hmem with h1 | h1
      · exact h h1
      · exact hc c (List.mem_cons_self c cs) h1
    · exact fun d hd => hc d (List.mem_cons_of_mem c hd)

/-! ### Ground sanity checks of the embedding -/

example : (ViteLogger.warnOnce cfgA (initState 3) "Sourcemap x node_modules y" o0).2 = [] := by decide
example : (ViteLogger.warnOnce cfgA (initState 3) "Sourcemap x node_modules y" o0).1.warnedMessages =
    ["Sourcemap x node_modules y"] := by decide
example : (ViteLogger.warn cfgA (initState 3) "hello" o0).2 =
    [{ kind := LogType.warn, text := "hello", level := 3 }] := by decide
example :
    (ViteLogger.warn cfgA (ViteLogger.warn cfgA (initState 3) "hello" o0).1 "hello" o0).2 =
    [{ kind := LogType.warn, text := "hello" ++ colorizeDim " (x2)", level := 3 }] := by decide
example : extractRef "  img.png referenced in app.css" = some "img.png" := by decide
example : extractRef "no match here" = none := by decide
example : extractRef ("first line\nimg.png" ++ refLiteral ++ " x") = some "img.png" := by decide
example : (ViteLogger.warn cfgB (initState 3)
    ("img.png referenced in app.css " ++ runtimePhrase) o0).2 = [] := by decide
example : (ViteLogger.warn cfgB (initState 3)
    ("other.png referenced in app.css " ++ runtimePhrase) o0).2 ≠ [] := by decide
example : (ViteLogger.info cfgB (initState 3) "built .output ok" o0).2 = [] := by decide
example : (ViteLogger.warn cfgA (initState 3) "boom" { clear := false, error := some 7 }).1.loggedErrors = [7] := by decide
example : (ViteLogger.warn cfgA (initState 3) "Sourcemap node_modules" { clear := false, error := some 7 }).1.loggedErrors = [] := by decide

/-! ### Claim theorems -/

/-- C8: for every id that ends with ".vue" and carries no query string,
    isVue returns true regardless of the opts.type filter. -/
theorem isVue_bare_vue :
    ∀ (id : String) (optsType : Option (List String)),
      strEndsWith id ".vue" = true → (parseFileURL id).search = "" →
      isVue id optsType = true := by
  intro id o h1 h2
  unfold isVue
  rw [h1, h2]
  rfl

/-- C8 witness: a concrete bare component path. -/
theorem isVue_bare_vue_witness :
    strEndsWith "/pages/app.vue" ".vue" = true ∧
    (parseFileURL "/pages/app.vue").search = "" ∧
    isVue "/pages/app.vue" none = true :=
  ⟨by decide, by decide, isVue_bare_vue "/pages/app.vue" none (by decide) (by decide)⟩

/-- C9: every logger call leaves the external logger level as it found it,
    and every line actually handed to the external logger is printed while
    the level equals the one mapped from config.logLevel. -/
theorem logger_level_restore :
    ∀ (cfg : Config) (s : LoggerState) (c : Call),
      (step cfg s c).1.externalLevel = s.externalLevel ∧
      ((step cfg s c).2.all
        (fun e => e.level == logLevelMapReverse (cfg.logLevel.getD ViteLevel.info))) = true := by
  intro cfg s c
  refine ⟨step_externalLevel cfg s c, ?_⟩
  rw [List.all_eq_true]
  intro e he
  exact beq_iff_eq.mpr (step_level_all cfg s c e he)

/-- C10: hasWarned starts false, warn and error always set it, warnOnce
    sets it on unseen messages, info leaves it unchanged, and no call ever
    resets it. -/
theorem hasWarned_invariant :
    (∀ lvl, (initState lvl).hasWarned = false) ∧
    (∀ cfg s msg opts, (ViteLogger.warn cfg s msg opts).1.hasWarned = true) ∧
    (∀ cfg s msg opts, (ViteLogger.error cfg s msg opts).1.hasWarned = true) ∧
    (∀ cfg s msg opts, msg ∉ s.warnedMessages →
      (ViteLogger.warnOnce cfg s msg opts).1.hasWarned = true) ∧
    (∀ cfg s msg opts, (ViteLogger.info cfg s msg opts).1.hasWarned = s.hasWarned) ∧
    (∀ cfg s c, s.hasWarned = true → (step cfg s c).1.hasWarned = true) := by
  refine ⟨fun _ => rfl, ?_, ?_, ?_, ?_, ?_⟩
  · intro cfg s msg opts
    show (output cfg { s with hasWarned := true } LogType.warn msg opts).1.hasWarned = true
    rw [output_hasWarned]
  · intro cfg s msg opts
    show (output cfg { s with hasWarned := true } LogType.error msg opts).1.hasWarned = true
    rw [output_hasWarned]
  · intro cfg s msg opts h
    show (ViteLogger.warnOnce cfg s msg opts).1.hasWarned = true
    unfold ViteLogger.warnOnce
    rw [if_neg h]
    show (output cfg { s with hasWarned := true } LogType.warn msg opts).1.hasWarned = true
    rw [output_hasWarned]
  · intro cfg s msg opts
    exact output_hasWarned cfg s LogType.info msg opts
  · intro cfg s c h
    exact step_hasWarned_mono h

/-- C10 witness: an unseen warnOnce on a fresh logger sets hasWarned. -/
theorem hasWarned_invariant_witness :
    "w1" ∉ (initState 0).warnedMessages ∧
    (ViteLogger.warnOnce cfgA (initState 0) "w1" o0).1.hasWarned = true :=
  ⟨by decide, hasWarned_invariant.2.2.2.1 cfgA (initState 0) "w1" o0 (by decide)⟩

/-- The number of lines `output` emits: none when filtered, one otherwise. -/
lemma output_length (cfg : Config) (s : LoggerState) (t : LogType) (m : String)
    (o : LogOptions) :
    (output cfg s t m o).2.length = (if filtered cfg t m then 0 else 1) := by
  rw [output_eq]; split_ifs <;> rfl

/-- C1 counterexample: on a fresh logger, the very first warnOnce call with
    the (never seen) message "Sourcemap node_modules" produces no output,
    because the noise filter drops it before it reaches the external
    logger; the claim asserts the first call with a given message always
    produces output. -/
theorem warnOnce_first_call_cex :
    "Sourcemap node_modules" ∉ (initState 3).warnedMessages ∧
    (ViteLogger.warnOnce cfgA (initState 3) "Sourcemap node_modules" o0).2 = [] := by
  constructor
  · decide
  · decide

/-- C1 (amended): warnOnce emits each distinct message at most once — a
    call with an unseen message records the message and emits exactly one
    line unless the noise filter suppresses the message (then zero lines);
    a call with a seen message returns immediately with no output and no
    state change; and the seen-message set only ever grows. -/
theorem warnOnce_dedup :
    (∀ cfg s msg opts, msg ∉ s.warnedMessages →
      msg ∈ (ViteLogger.warnOnce cfg s msg opts).1.warnedMessages ∧
      (ViteLogger.warnOnce cfg s msg opts).2.length =
        (if filtered cfg LogType.warn msg then 0 else 1)) ∧
    (∀ cfg s msg opts, msg ∈ s.warnedMessages →
      ViteLogger.warnOnce cfg s msg opts = (s, [])) ∧
    (∀ cfg s msg (c : Call), msg ∈ s.warnedMessages →
      msg ∈ (step cfg s c).1.warnedMessages) := by
  refine ⟨?_, ?_, ?_⟩
  · intro cfg s msg opts h
    unfold ViteLogger.warnOnce
    rw [if_neg h]
    constructor
    · exact List.mem_cons_self _ _
    · exact output_length cfg _ LogType.warn msg opts
  · intro cfg s msg opts h
    unfold ViteLogger.warnOnce
    rw [if_pos h]
  · intro cfg s msg c h
    exact step_warnedMessages_mono h

/-- C1 witness: an unseen unfiltered message is emitted once and recorded;
    a second warnOnce with it produces nothing. -/
theorem warnOnce_dedup_witness :
    ("late warning" ∈ (ViteLogger.warnOnce cfgA (initState 3) "late warning" o0).1.warnedMessages ∧
      (ViteLogger.warnOnce cfgA (initState 3) "late warning" o0).2.length = 1) ∧
    ViteLogger.warnOnce cfgA
      (ViteLogger.warnOnce cfgA (initState 3) "late warning" o0).1 "late warning" o0 =
      ((ViteLogger.warnOnce cfgA (initState 3) "late warning" o0).1, []) := by
  constructor
  · have h := warnOnce_dedup.1 cfgA (initState 3) "late warning" o0 (by decide)
    exact ⟨h.1, h.2⟩
  · exact warnOnce_dedup.2.1 cfgA _ "late warning" o0 (by decide)

/-- C2: when a message passes the filter, output compares it with the
    tracked last (kind, message) pair: on a match it increments the
    duplicate counter and emits the line annotated with a dim repeat
    suffix (the count after the increment plus one), and on a mismatch it
    resets the counter to zero, records the new pair, and emits the plain
    line. -/
theorem output_duplicate_tracking :
    ∀ cfg s t msg opts, filtered cfg t msg = false →
      ((s.lastType = some t ∧ s.lastMsg = some msg) →
        (output cfg s t msg opts).1.duplicateCount = s.duplicateCount + 1 ∧
        (output cfg s t msg opts).2 =
          [{ kind := t,
             text := msg ++ colorizeDim (" (x" ++ toString (s.duplicateCount + 2) ++ ")"),
             level := logLevelMapReverse (cfg.logLevel.getD ViteLevel.info) }]) ∧
      (¬(s.lastType = some t ∧ s.lastMsg = some msg) →
        (output cfg s t msg opts).1.duplicateCount = 0 ∧
        (output cfg s t msg opts).1.lastType = some t ∧
        (output cfg s t msg opts).1.lastMsg = some msg ∧
        (output cfg s t msg opts).2 =
          [{ kind := t, text := msg,
             level := logLevelMapReverse (cfg.logLevel.getD ViteLevel.info) }]) := by
  intro cfg s t msg opts hf
  constructor
  · rintro ⟨h1, h2⟩
    have hb : (s.lastType == some t && s.lastMsg == some msg) = true := by
      simp [h1, h2]
    rw [output_eq, hf]
    simp only [Bool.false_eq_true, if_false, hb, if_true]
    simp
  · intro h
    have hb : ¬((s.lastType == some t && s.lastMsg == some msg) = true) := by
      simpa [Bool.and_eq_true, beq_iff_eq] using h
    rw [output_eq, hf]
    simp only [Bool.false_eq_true, if_false, if_neg hb]
    simp

/-- C2 witness: a repeat of the tracked pair annotates with (x2) and bumps
    the counter; a differing message resets the counter and re-records. -/
theorem output_duplicate_tracking_witness :
    ((output cfgA stC2 LogType.warn "w" o0).1.duplicateCount = 1 ∧
      (output cfgA stC2 LogType.warn "w" o0).2 =
        [{ kind := LogType.warn,
           text := "w" ++ colorizeDim (" (x" ++ toString (2 : Nat) ++ ")"),
           level := 3 }]) ∧
    ((output cfgA stC2 LogType.warn "v" o0).1.duplicateCount = 0 ∧
      (output cfgA stC2 LogType.warn "v" o0).1.lastType = some LogType.warn ∧
      (output cfgA stC2 LogType.warn "v" o0).1.lastMsg = some "v" ∧
      (output cfgA stC2 LogType.warn "v" o0).2 =
        [{ kind := LogType.warn, text := "v", level := 3 }]) := by
  constructor
  · exact (output_duplicate_tracking cfgA stC2 LogType.warn "w" o0 (by decide)).1
      ⟨by decide, by decide⟩
  · exact (output_duplicate_tracking cfgA stC2 LogType.warn "v" o0 (by decide)).2
      (by decide)

/-- C3 counterexample: a warn call carrying error object 7 whose message
    is dropped by the noise filter does not record the error, so
    hasErrorLogged(7) is still false afterwards; the claim asserts every
    logging call carrying an error records it. -/
theorem hasErrorLogged_filtered_cex :
    ViteLogger.hasErrorLogged
      (ViteLogger.warn cfgA (initState 3) "Sourcemap of node_modules dep"
        { clear := false, error := some 7 }).1 7 = false := by
  decide

/-- C3 (amended): an error object passed in the options is recorded — and
    hasErrorLogged then answers true — whenever the call actually reaches
    the emission stage of output (it is not dropped by the noise filter
    and, for warnOnce, the message is unseen); and hasErrorLogged answers
    false for any error object never passed to a call of the run. -/
theorem hasErrorLogged_spec :
    (∀ cfg s c e, reachesOutput cfg s c = true → Call.errOf c = some e →
      ViteLogger.hasErrorLogged (step cfg s c).1 e = true) ∧
    (∀ cfg s calls e, e ∉ s.loggedErrors → (∀ c ∈ calls, Call.errOf c ≠ some e) →
      ViteLogger.hasErrorLogged (run cfg s calls) e = false) := by
  constructor
  · intro cfg s c e hr he
    cases c <;>
      simp only [step, ViteLogger.info, ViteLogger.warn, ViteLogger.error,
        ViteLogger.warnOnce, reachesOutput, Call.errOf] at hr he ⊢
    case info msg opts =>
      have hf : filtered cfg LogType.info msg = false := by simpa using hr
      simp [ViteLogger.hasErrorLogged, output_loggedErrors_mem hf he]
    case warn msg opts =>
      have hf : filtered cfg LogType.warn msg = false := by simpa using hr
      simp [ViteLogger.hasErrorLogged,
        output_loggedErrors_mem (s := { s with hasWarned := true }) hf he]
    case error msg opts =>
      have hf : filtered cfg LogType.error msg = false := by simpa using hr
      simp [ViteLogger.hasErrorLogged,
        output_loggedErrors_mem (s := { s with hasWarned := true }) hf he]
    case warnOnce msg opts =>
      rw [Bool.and_eq_true] at hr
      have hc1 : s.warnedMessages.contains msg = false := by simpa using hr.1
      have hf : filtered cfg LogType.warn msg = false := by simpa using hr.2
      have hmem : ¬(msg ∈ s.warnedMessages) := by
        intro hin
        have h2 : s.warnedMessages.contains msg = true := List.elem_iff.mpr hin
        rw [hc1] at h2
        cases h2
      rw [if_neg hmem]
      simp [ViteLogger.hasErrorLogged,
        output_loggedErrors_mem (s := { s with hasWarned := true }) hf he]
  · intro cfg s calls e h hc
    simp only [ViteLogger.hasErrorLogged]
    exact decide_eq_false (run_loggedErrors_absent h hc)

/-- C3 witness: an unfiltered error call records its error object, and an
    error object never passed is never reported as logged. -/
theorem hasErrorLogged_spec_witness :
    ViteLogger.hasErrorLogged
      (step cfgA (initState 3) (Call.error "boom" { clear := false, error := some 5 })).1 5 = true ∧
    ViteLogger.hasErrorLogged
      (run cfgA (initState 3) [Call.warn "w" { clear := false, error := some 4 }]) 9 = false := by
  constructor
  · exact hasErrorLogged_spec.1 cfgA (initState 3) _ 5 (by decide) (by decide)
  · exact hasErrorLogged_spec.2 cfgA (initState 3) _ 9 (by decide) (by decide)

/-- C4: the classifier helpers are total functions on arbitrary id
    strings: isVue and isJS always return a boolean, getLoader always
    returns one of the three loader tags or none, and an id whose pathname
    extension matches no recognized pattern (neither ".vue" nor the
    script-extension regex) gets no loader. Totality (no exception on
    malformed input) holds by construction: every definition in the
    embedding is a total function. -/
theorem classifier_totality :
    ∀ (id : String) (optsType : Option (List String)),
      (isVue id optsType = true ∨ isVue id optsType = false) ∧
      (isJS id = true ∨ isJS id = false) ∧
      (getLoader id = some Loader.vue ∨ getLoader id = some Loader.ts ∨
        getLoader id = some Loader.tsx ∨ getLoader id = none) ∧
      (extname (parseFileURL id).pathname ≠ ".vue" →
        jsRegexTest (extname (parseFileURL id).pathname) = false → getLoader id = none) := by
  intro id o
  refine ⟨?_, ?_, ?_, ?_⟩
  · rcases Bool.eq_false_or_eq_true (isVue id o) with h | h
    · exact Or.inl h
    · exact Or.inr h
  · rcases Bool.eq_false_or_eq_true (isJS id) with h | h
    · exact Or.inl h
    · exact Or.inr h
  · simp only [getLoader]
    split_ifs <;> simp
  · intro hv hj
    have hb : (extname (parseFileURL id).pathname == ".vue") = false := by
      rw [beq_eq_false_iff_ne]
      exact hv
    simp [getLoader, hb, hj]

/-- C4 witness: a non-script id gets no loader. -/
theorem classifier_totality_witness :
    extname (parseFileURL "styles/app.css").pathname ≠ ".vue" ∧
    jsRegexTest (extname (parseFileURL "styles/app.css").pathname) = false ∧
    getLoader "styles/app.css" = none :=
  ⟨by decide, by decide,
    (classifier_totality "styles/app.css" none).2.2.2 (by decide) (by decide)⟩

/-- C5 counterexample: for the id "a.vue" the pathname extension ".vue" is
    not in the script-like extension set, yet getLoader returns the vue
    tag rather than the null the claim requires for extensions outside the
    script-like set. -/
theorem getLoader_vue_cex :
    extname (parseFileURL "a.vue").pathname = ".vue" ∧
    jsRegexTest ".vue" = false ∧
    getLoader "a.vue" = some Loader.vue := by
  refine ⟨by decide, by decide, by decide⟩

/-- C5 (amended): getLoader returns tsx when the pathname extension is
    ".tsx", the ts tag for the non-x script extensions (".js", ".cjs",
    ".mjs", ".ts"), and null when the extension is neither ".vue" nor in
    the script-like set. -/
theorem getLoader_mapping :
    ∀ id : String,
      (extname (parseFileURL id).pathname = ".tsx" → getLoader id = some Loader.tsx) ∧
      ((extname (parseFileURL id).pathname = ".js" ∨ extname (parseFileURL id).pathname = ".cjs" ∨
        extname (parseFileURL id).pathname = ".mjs" ∨ extname (parseFileURL id).pathname = ".ts") →
        getLoader id = some Loader.ts) ∧
      (extname (parseFileURL id).pathname ≠ ".vue" →
        jsRegexTest (extname (parseFileURL id).pathname) = false →
        getLoader id = none) := by
  intro id
  refine ⟨?_, ?_, ?_⟩
  · intro h
    simp only [getLoader]
    rw [h]
    decide
  · rintro (h | h | h | h) <;> (simp only [getLoader]; rw [h]; decide)
  · intro hv hj
    have hb : (extname (parseFileURL id).pathname == ".vue") = false := by
      rw [beq_eq_false_iff_ne]
      exact hv
    simp [getLoader, hb, hj]

/-- C5 witness: the three mapping cases at concrete ids. -/
theorem getLoader_mapping_witness :
    getLoader "c/a.tsx" = some Loader.tsx ∧
    getLoader "c/b.js" = some Loader.ts ∧
    getLoader "c/d.svg" = none :=
  ⟨(getLoader_mapping "c/a.tsx").1 (by decide),
    (getLoader_mapping "c/b.js").2.1 (Or.inl (by decide)),
    (getLoader_mapping "c/d.svg").2.2 (by decide) (by decide)⟩

/-- C6: with DEBUG unset, output emits nothing (and leaves the state
    untouched) for sourcemap warnings mentioning node_modules, for
    runtime-resolve warnings whose referenced id resolves to a public
    asset, and for info messages containing the relative build output
    directory when hideOutput is requested. -/
theorem output_noise_filter :
    ∀ cfg s t msg opts, cfg.debug = false →
      ((strStartsWith msg "Sourcemap" = true ∧ strContains msg "node_modules" = true) →
        output cfg s t msg opts = (s, [])) ∧
      (∀ i, strContains msg runtimePhrase = true → extractRef msg = some i →
        cfg.resolvePublicAsset i = true → output cfg s t msg opts = (s, [])) ∧
      ((t = LogType.info ∧ cfg.hideOutput = true ∧ strContains msg cfg.relativeOutDir = true) →
        output cfg s t msg opts = (s, [])) := by
  intro cfg s t msg opts hd
  refine ⟨?_, ?_, ?_⟩
  · rintro ⟨h1, h2⟩
    exact output_of_filtered (by simp [filtered, hd, h1, h2])
  · intro i hp hr hres
    exact output_of_filtered (by simp [filtered, hd, hp, hr, hres])
  · rintro ⟨rfl, h2, h3⟩
    exact output_of_filtered (by simp [filtered, hd, h2, h3])

/-- C6 witness: the three suppressed shapes at concrete inputs. -/
theorem output_noise_filter_witness :
    output cfgB (initState 3) LogType.warn "Sourcemap of node_modules file is likely to be incorrect" o0 =
      (initState 3, []) ∧
    output cfgB (initState 3) LogType.warn ("img.png referenced in app.css " ++ runtimePhrase) o0 =
      (initState 3, []) ∧
    output cfgB (initState 3) LogType.info "built client bundle in .output dir" o0 =
      (initState 3, []) := by
  refine ⟨(output_noise_filter cfgB (initState 3) LogType.warn _ o0 rfl).1 ⟨by decide, by decide⟩,
    (output_noise_filter cfgB (initState 3) LogType.warn _ o0 rfl).2.1 "img.png"
      (by decide) (by decide) (by decide),
    (output_noise_filter cfgB (initState 3) LogType.info _ o0 rfl).2.2 ⟨rfl, rfl, by decide⟩⟩

/-- Evaluation of isVueCore on the query string "?vue&type=style" with an
    opts.type array containing "style". -/
lemma isVueCore_style_mem (b : Bool) (ts : List String) (h : ts.contains "style" = true) :
    isVueCore b "?vue&type=style" (some ts) = true := by
  cases b <;> (show (if !(ts.contains "style") then false else true) = true; rw [h]; rfl)

/-- Evaluation of isVueCore on the query string "?vue&type=style" with an
    opts.type array not containing "style". -/
lemma isVueCore_style_not (b : Bool) (ts : List String) (h : ts.contains "style" = false) :
    isVueCore b "?vue&type=style" (some ts) = false := by
  cases b <;> (show (if !(ts.contains "style") then false else true) = false; rw [h]; rfl)

/-- Evaluation of isVueCore on the query string "?vue&type=style" with no
    opts.type filter. -/
lemma isVueCore_style_none (b : Bool) : isVueCore b "?vue&type=style" none = true := by
  cases b <;> rfl

/-- C7: an id whose query string is "?vue&type=style" classifies as a
    style sub-block: isVue returns true when opts.type is absent or
    includes "style", and false when opts.type is given without "style". -/
theorem isVue_style_query :
    ∀ (id : String) (optsType : Option (List String)),
      (parseFileURL id).search = "?vue&type=style" →
      ((optsType = none ∨ ∃ ts, optsType = some ts ∧ "style" ∈ ts) →
        isVue id optsType = true) ∧
      (∀ ts, optsType = some ts → "style" ∉ ts → isVue id optsType = false) := by
  intro id o hs
  unfold isVue
  rw [hs]
  constructor
  · rintro (rfl | ⟨ts, rfl, hin⟩)
    · exact isVueCore_style_none _
    · exact isVueCore_style_mem _ ts (List.elem_iff.mpr hin)
  · rintro ts rfl hnin
    refine isVueCore_style_not _ ts ?_
    cases hc : ts.contains "style"
    · rfl
    · exact absurd (List.elem_iff.mp hc) hnin

/-- C7 witness: the three cases at a concrete style sub-block id. -/
theorem isVue_style_query_witness :
    isVue "/a/b.vue?vue&type=style" (some ["style"]) = true ∧
    isVue "/a/b.vue?vue&type=style" (some ["script"]) = false ∧
    isVue "/a/b.vue?vue&type=style" none = true :=
  ⟨(isVue_style_query "/a/b.vue?vue&type=style" (some ["style"]) (by decide)).1
      (Or.inr ⟨["style"], rfl, by decide⟩),
    (isVue_style_query "/a/b.vue?vue&type=style" (some ["script"]) (by decide)).2
      ["script"] rfl (by decide),
    (isVue_style_query "/a/b.vue?vue&type=style" none (by decide)).1 (Or.inl rfl)⟩

end NuxtVerify
